import Mathlib

/-!
Verification of the certificate-lifecycle control plane of the
`auto-cert-webhook` repository (Go).  Each Go function relevant to the
checked claims is shallowly embedded as an executable Lean definition;
cluster I/O, crypto primitives and the informer machinery are abstracted
into explicit parameters or event lists, while the control flow of the
embedded functions follows the Go source line by line.
-/

set_option maxHeartbeats 1000000

namespace CertManager

/-- Opaque handle for a `*crypto.CA` value returned by the signing rotator
(`openshift/library-go`); only its identity matters for the control flow of
`Manager.sync`. -/
abbrev CA := Nat

/-- Opaque handle for an `*x509.Certificate` appearing in the CA bundle. -/
abbrev CACert := Nat

/-- The three ensure steps invoked by `Manager.sync` (internal/certmanager). -/
inductive SyncStep
  | ensureCA
  | ensureCABundle
  | ensureServingCert
deriving Repr

/-- Environment of one `Manager.sync` call: the outcomes of the three ensure
helpers.  `ensureCA`, `ensureCABundle` and `ensureServingCert` each perform
cluster I/O through library-go rotators; their results are supplied here so
that `sync`'s own control flow can be embedded exactly. -/
structure SyncEnv where
  caResult : Except String CA
  bundleResult : CA → Except String (List CACert)
  servingResult : CA → List CACert → Except String Unit

/-- Result of one `Manager.sync` call: the ensure steps that were invoked, in
invocation order, and the value returned by `sync`. -/
structure SyncOutcome where
  steps : List SyncStep
  result : Except String Unit
deriving Repr

/-- Embedding of `Manager.sync` (internal/certmanager/manager.go): ensure the
CA, then the CA bundle, then the serving certificate, wrapping and returning
the first error encountered. -/
def sync (env : SyncEnv) : SyncOutcome :=
  match env.caResult with
  | .error e => ⟨[.ensureCA], .error ("failed to ensure CA: " ++ e)⟩
  | .ok ca =>
    match env.bundleResult ca with
    | .error e => ⟨[.ensureCA, .ensureCABundle], .error ("failed to ensure CA bundle: " ++ e)⟩
    | .ok bundle =>
      match env.servingResult ca bundle with
      | .error e =>
        ⟨[.ensureCA, .ensureCABundle, .ensureServingCert],
          .error ("failed to ensure serving certificate: " ++ e)⟩
      | .ok _ => ⟨[.ensureCA, .ensureCABundle, .ensureServingCert], .ok ()⟩

/-- Seconds between ticker fires in `Manager.Start` (`time.NewTicker(time.Minute)`). -/
def tickIntervalSeconds : Nat := 60

/-- Environment of one `Manager.Start` call.  `cacheSyncOk` is the value of
`toolscache.WaitForCacheSync` (false exactly when the stop channel — the
context's Done channel — closes before the informer caches sync).
`syncResult k` is the outcome of the k-th invocation of `m.sync`.
`cancelTick` is the number of ticker fires delivered before `ctx.Done()` is
selected. -/
structure StartEnv where
  cacheSyncOk : Bool
  syncResult : Nat → Except String Unit
  cancelTick : Nat

/-- Result of one `Manager.Start` call: the times (in seconds from the first
reconcile) at which `m.sync` was invoked, the logged error messages, and the
error value returned by `Start`. -/
structure StartOutcome where
  syncTimes : List Nat
  errorLog : List String
  result : Except String Unit
deriving Repr

/-- Embedding of the ticker loop inside `Manager.Start`: each remaining tick
runs `m.sync`, logs a failure without aborting, and the loop returns nil when
the context is cancelled.  `k` counts sync invocations already performed. -/
def startLoop (syncResult : Nat → Except String Unit) (k : Nat) :
    Nat → List Nat × List String
  | 0 => ([], [])
  | n + 1 =>
    let entry :=
      match syncResult k with
      | .error e => ["Certificate sync failed: " ++ e]
      | .ok _ => []
    let rest := startLoop syncResult (k + 1) n
    (k * tickIntervalSeconds :: rest.1, entry ++ rest.2)

/-- Embedding of `Manager.Start` (internal/certmanager/manager.go): wait for
the informer caches (returning an error if that fails), run one sync
immediately — logging a failure — then run one sync per ticker fire until the
context is cancelled, finally returning nil. -/
def start (env : StartEnv) : StartOutcome :=
  if env.cacheSyncOk then
    let initialLog :=
      match env.syncResult 0 with
      | .error e => ["Initial certificate sync failed: " ++ e]
      | .ok _ => []
    let rest := startLoop env.syncResult 1 env.cancelTick
    ⟨0 :: rest.1, initialLog ++ rest.2, .ok ()⟩
  else
    ⟨[], [], .error "could not sync informer cache"⟩

end CertManager

namespace CertProvider

/-- Raw byte string stored under a Secret data key (PEM material). -/
abbrev Bytes := List UInt8

/-- Opaque handle for a parsed `tls.Certificate` keypair. -/
abbrev Keypair := Nat

/-- The `Data` map of the watched Secret, restricted to the two keys the
provider reads: `tls.crt` and `tls.key`.  `none` means the key is absent from
the map. -/
structure SecretData where
  crt : Option Bytes
  key : Option Bytes

/-- In-memory state of a `certprovider.Provider`: the atomic keypair pointer
`current` and the atomic `ready` flag. -/
structure ProviderState where
  current : Option Keypair
  ready : Bool
deriving DecidableEq, Repr

/-- Provider state before any event: nil keypair pointer, not ready. -/
def initialState : ProviderState := ⟨none, false⟩

/-- Embedding of `Provider.onSecretUpdate` (internal/certprovider): return
(leaving all state unchanged) when `tls.crt` or `tls.key` is absent or empty
or when the PEM material fails to parse; on success store the parsed keypair
and set the ready flag.  `parse` abstracts `tls.X509KeyPair`. -/
def onSecretUpdate (parse : Bytes → Bytes → Option Keypair)
    (s : ProviderState) (sec : SecretData) : ProviderState :=
  match sec.crt with
  | none => s
  | some certPEM =>
    if certPEM.isEmpty then s
    else
      match sec.key with
      | none => s
      | some keyPEM =>
        if keyPEM.isEmpty then s
        else
          match parse certPEM keyPEM with
          | none => s
          | some kp => ⟨some kp, true⟩

/-- Events delivered to the provider for the watched Secret: `upsert` covers
the informer Add/Update handlers and the initial `loadCertificate` (all of
which call `onSecretUpdate`), `delete` covers the Delete handler. -/
inductive SecretEvent
  | upsert (sec : SecretData)
  | delete

/-- Embedding of the event dispatch installed by `Provider.Start`: add/update
events call `onSecretUpdate`; a delete event only stores `false` into the
ready flag. -/
def step (parse : Bytes → Bytes → Option Keypair)
    (s : ProviderState) (e : SecretEvent) : ProviderState :=
  match e with
  | .upsert sec => onSecretUpdate parse s sec
  | .delete => ⟨s.current, false⟩

/-- State of the provider after a sequence of events starting from the fresh
provider returned by `certprovider.New`. -/
def run (parse : Bytes → Bytes → Option Keypair)
    (events : List SecretEvent) : ProviderState :=
  events.foldl (step parse) initialState

/-- Embedding of `Provider.GetCertificate`: load the atomic pointer, return
an error when it is nil and the stored keypair otherwise. -/
def getCertificate (s : ProviderState) : Except String Keypair :=
  match s.current with
  | none => .error "certificate not yet loaded from secret"
  | some c => .ok c

/-- Embedding of `Provider.Ready`: load the atomic ready flag. -/
def readyFlag (s : ProviderState) : Bool := s.ready

/-- The keypair installed by an event, when the event is an upsert that
passes every guard of `onSecretUpdate`; `none` when the event leaves the
stored keypair unchanged. -/
def installResult (parse : Bytes → Bytes → Option Keypair)
    (e : SecretEvent) : Option Keypair :=
  match e with
  | .delete => none
  | .upsert sec =>
    match sec.crt with
    | none => none
    | some certPEM =>
      if certPEM.isEmpty then none
      else
        match sec.key with
        | none => none
        | some keyPEM =>
          if keyPEM.isEmpty then none
          else parse certPEM keyPEM

/-- The most recently installed keypair over a sequence of events (none when
no event ever installed one). -/
def lastInstalled (parse : Bytes → Bytes → Option Keypair)
    (events : List SecretEvent) : Option Keypair :=
  events.foldl (fun acc e => (installResult parse e).or acc) none


end CertProvider

namespace AdmissionHTTP

/-- Maximum allowed admission request body size in internal/server
(`maxRequestBodySize = 10 * 1024 * 1024`). -/
def maxRequestBodySize : Nat := 10 * 1024 * 1024

/-- String form of `admissionv1.SchemeGroupVersion`. -/
def admissionGroupVersion : String := "admission.k8s.io/v1"

/-- The part of `admissionv1.AdmissionRequest` the adapters read: the UID
echoed into the response. -/
structure AdmissionRequest where
  uid : String
deriving DecidableEq, Repr

/-- Decoded `admissionv1.AdmissionReview` envelope (request side). -/
structure AdmissionReview where
  apiVersion : String
  request : Option AdmissionRequest
deriving DecidableEq, Repr

/-- Embedding of `metav1.Status` as used in admission responses. -/
structure StatusResult where
  status : String
  message : String
  code : Nat
deriving DecidableEq, Repr

/-- Embedding of `admissionv1.AdmissionResponse`. -/
structure AdmissionResponse where
  allowed : Bool
  uid : String
  result : Option StatusResult
deriving DecidableEq, Repr

/-- The response-side `AdmissionReview` envelope written back as JSON. -/
structure ResponseReview where
  apiVersion : String
  kind : String
  response : AdmissionResponse
deriving DecidableEq, Repr

/-- An incoming admission HTTP request as observed by the handlers: the body
length in bytes, the Content-Type header, and the result of running the
universal deserializer on the body (`none` = decode error). -/
structure HttpRequest where
  bodyLen : Nat
  contentType : String
  decoded : Option AdmissionReview
deriving Repr

/-- Observable outcome of one handler invocation: an `http.Error` rejection
with its status code, a JSON admission-review response, or a runtime panic
(nil-pointer dereference) inside the handler. -/
inductive HttpOutcome
  | httpError (code : Nat) (msg : String)
  | response (rv : ResponseReview)
  | panicked
deriving DecidableEq, Repr

/-- Outcome of a handler run together with whether the user-supplied Admit
function was invoked. -/
structure HandlerResult where
  outcome : HttpOutcome
  handlerCalled : Bool
deriving DecidableEq, Repr

/-- The apiVersion placed on the response review: the request's apiVersion
when non-empty (backwards compatibility), else `admission.k8s.io/v1`. -/
def responseAPIVersion (ar : AdmissionReview) : String :=
  if ar.apiVersion ≠ "" then ar.apiVersion else admissionGroupVersion

/-- Response produced when the decoded review has a nil `Request`
(message "AdmissionReview.Request is nil", code 400, UID left empty). -/
def nilRequestResponse : AdmissionResponse :=
  ⟨false, "", some ⟨"", "AdmissionReview.Request is nil", 400⟩⟩

/-- Embedding of `admissionHandler.ServeHTTP` (internal/server/handler.go).
The Go code reads the body through `http.MaxBytesReader` (hence a read error
and a 400 rejection for bodies over 10 MiB), rejects empty bodies with 400
and non-`application/json` content types with 415, decodes the review, and
answers a nil `Request` with a 400-status response.  Otherwise it calls the
user Admit function (`handle` here); when that returns nil, the subsequent
`Response.UID` assignment dereferences a nil pointer and panics. -/
def serveHTTP (handle : AdmissionReview → Option AdmissionResponse)
    (r : HttpRequest) : HandlerResult :=
  if maxRequestBodySize < r.bodyLen then
    ⟨.httpError 400 "failed to read request body: http: request body too large", false⟩
  else if r.bodyLen = 0 then
    ⟨.httpError 400 "empty request body", false⟩
  else if r.contentType ≠ "application/json" then
    ⟨.httpError 415 ("unsupported content type: " ++ r.contentType), false⟩
  else
    match r.decoded with
    | none => ⟨.httpError 400 "failed to decode admission review", false⟩
    | some ar =>
      match ar.request with
      | none =>
        ⟨.response ⟨responseAPIVersion ar, "AdmissionReview", nilRequestResponse⟩, false⟩
      | some req =>
        match handle ar with
        | none => ⟨.panicked, true⟩
        | some resp =>
          ⟨.response ⟨responseAPIVersion ar, "AdmissionReview",
            { resp with uid := req.uid }⟩, true⟩

/-- Embedding of `handleAdmission` (pkg/server/handler.go, the legacy
adapter).  Identical control flow to `serveHTTP` except that the body is read
with a plain `io.ReadAll` — no `MaxBytesReader`, hence no size limit. -/
def handleAdmission (handle : AdmissionReview → Option AdmissionResponse)
    (r : HttpRequest) : HandlerResult :=
  if r.bodyLen = 0 then
    ⟨.httpError 400 "empty request body", false⟩
  else if r.contentType ≠ "application/json" then
    ⟨.httpError 415 ("unsupported content type: " ++ r.contentType), false⟩
  else
    match r.decoded with
    | none => ⟨.httpError 400 "failed to decode admission review", false⟩
    | some ar =>
      match ar.request with
      | none =>
        ⟨.response ⟨responseAPIVersion ar, "AdmissionReview", nilRequestResponse⟩, false⟩
      | some req =>
        match handle ar with
        | none => ⟨.panicked, true⟩
        | some resp =>
          ⟨.response ⟨responseAPIVersion ar, "AdmissionReview",
            { resp with uid := req.uid }⟩, true⟩

/-- A well-formed admission request whose decoded review carries a non-nil
`Request`; used to exercise the nil-response path of the adapters. -/
def nilResponseProbe : HttpRequest :=
  ⟨100, "application/json", some ⟨"admission.k8s.io/v1", some ⟨"uid-1"⟩⟩⟩

/-- A valid admission request whose body is one byte over the 10 MiB limit. -/
def oversizedRequest : HttpRequest :=
  ⟨10 * 1024 * 1024 + 1, "application/json",
    some ⟨"admission.k8s.io/v1", some ⟨"uid-2"⟩⟩⟩

/-- An Admit function that allows everything. -/
def allowAll : AdmissionReview → Option AdmissionResponse :=
  fun _ => some ⟨true, "", none⟩

end AdmissionHTTP

namespace Startup

/-- Go `time.Duration` (a signed 64-bit count of nanoseconds); the embedding
uses unbounded integers since the validation logic only compares durations. -/
abbrev Duration := Int

/-- The configuration fields of `autocertwebhook.Config` read by the startup
validation path of `RunWithContext` (types.go / run.go).  `ns` embeds the Go
field `Namespace`. -/
structure Config where
  name : String
  ns : String
  serviceName : String
  caSecretName : String
  certSecretName : String
  caBundleConfigMapName : String
  leaderElectionID : String
  caValidity : Duration
  caRefresh : Duration
  certValidity : Duration
  certRefresh : Duration
deriving DecidableEq, Repr

/-- One `autocertwebhook.Hook`: its URL path, its type string (the Go
constants are the strings "Mutating" and "Validating"), and whether the
user left the Admit function nil (`handleNil`). -/
structure Hook where
  path : String
  type_ : String
  handleNil : Bool
deriving DecidableEq, Repr

/-- Embedding of the hook-validation loop of `RunWithContext` (run.go):
iterate over the hooks with the set of already-seen paths, rejecting an empty
path, a path not starting with a slash, a duplicated path, a nil Admit
function, and a type other than Mutating or Validating. -/
def validateHooks (seen : List String) (i : Nat) : List Hook → Except String Unit
  | [] => .ok ()
  | h :: rest =>
    if h.path = "" then
      .error ("hook " ++ toString i ++ ": path is required")
    else if h.path.toList.head? ≠ some '/' then
      .error ("hook " ++ toString i ++ ": path must start with slash")
    else if seen.contains h.path then
      .error ("hook " ++ toString i ++ ": path already defined")
    else if h.handleNil then
      .error ("hook " ++ toString i ++ ": admit function is required")
    else if h.type_ ≠ "Mutating" ∧ h.type_ ≠ "Validating" then
      .error ("hook " ++ toString i ++ ": type must be Mutating or Validating")
    else
      validateHooks (h.path :: seen) (i + 1) rest

/-- Embedding of `applyDefaults` (run.go): fill the namespace from the
detection chain (`detectedNs` stands for `getNamespace()`), default the
service name to the webhook name, and default each resource name to
`<name>-<suffix>`.  The certificate durations are not touched. -/
def applyDefaults (detectedNs : String) (cfg : Config) : Config :=
  { cfg with
    ns := if cfg.ns = "" then detectedNs else cfg.ns
    serviceName := if cfg.serviceName = "" then cfg.name else cfg.serviceName
    caSecretName := if cfg.caSecretName = "" then cfg.name ++ "-ca" else cfg.caSecretName
    certSecretName := if cfg.certSecretName = "" then cfg.name ++ "-cert" else cfg.certSecretName
    caBundleConfigMapName :=
      if cfg.caBundleConfigMapName = "" then cfg.name ++ "-ca-bundle"
      else cfg.caBundleConfigMapName
    leaderElectionID :=
      if cfg.leaderElectionID = "" then cfg.name ++ "-leader" else cfg.leaderElectionID }

/-- Embedding of `validateCertDurations` (run.go): every duration must be
positive and each refresh strictly less than its validity (Go tests
`cfg.CARefresh >= cfg.CAValidity` and the cert analogue). -/
def validateCertDurations (cfg : Config) : Except String Unit :=
  if cfg.caValidity ≤ 0 then .error "CA validity must be positive"
  else if cfg.caRefresh ≤ 0 then .error "CA refresh must be positive"
  else if cfg.certValidity ≤ 0 then .error "cert validity must be positive"
  else if cfg.certRefresh ≤ 0 then .error "cert refresh must be positive"
  else if cfg.caValidity ≤ cfg.caRefresh then
    .error "CA refresh must be less than CA validity"
  else if cfg.certValidity ≤ cfg.certRefresh then
    .error "cert refresh must be less than cert validity"
  else .ok ()

/-- Result of the startup prefix of `RunWithContext`: either an error
returned before the Kubernetes client is created (so no cluster object is
written and no component goroutine is started), or the validated
configuration with which the components are then started. -/
inductive StartupResult
  | failed (msg : String)
  | started (cfg : Config) (hooks : List Hook)

/-- Embedding of the startup validation prefix of `RunWithContext` (run.go):
reject an empty name, an empty hook list, invalid hooks, then apply defaults
and validate the certificate durations; only when all checks pass does the
function proceed to create the client and start components.  `applyEnvConfig`
is modeled as the identity (no `ACW_` environment variables set): validation
runs on the merged configuration either way. -/
def runWithContext (detectedNs : String) (cfg : Config) (hooks : List Hook) :
    StartupResult :=
  if cfg.name = "" then
    .failed "webhook name is required"
  else if hooks.isEmpty then
    .failed "at least one webhook hook is required"
  else
    match validateHooks [] 0 hooks with
    | .error e => .failed e
    | .ok _ =>
      let cfg := applyDefaults detectedNs cfg
      match validateCertDurations cfg with
      | .error e => .failed e
      | .ok _ => .started cfg hooks

/-- The invalid-configuration conditions enumerated by the claim: missing
name, a non-positive certificate duration, a refresh at least as large as its
validity, a hook path missing or duplicated, or a hook type other than
Mutating or Validating. -/
def invalidConfig (cfg : Config) (hooks : List Hook) : Prop :=
  cfg.name = "" ∨
  cfg.caValidity ≤ 0 ∨ cfg.caRefresh ≤ 0 ∨
  cfg.certValidity ≤ 0 ∨ cfg.certRefresh ≤ 0 ∨
  cfg.caValidity ≤ cfg.caRefresh ∨ cfg.certValidity ≤ cfg.certRefresh ∨
  (∃ h ∈ hooks, h.path = "") ∨
  ¬ (hooks.map Hook.path).Nodup ∨
  (∃ h ∈ hooks, h.type_ ≠ "Mutating" ∧ h.type_ ≠ "Validating")


end Startup

namespace CABundle

/-- Raw bytes of a `ca-bundle.crt` value. -/
abbrev Bytes := List UInt8

/-- Embedding of `cabundle.WebhookRef`: a webhook configuration name and its
type string ("validating" or "mutating"). -/
structure WebhookRef where
  name : String
  type_ : String
deriving DecidableEq, Repr

/-- One JSON-patch operation as built by `patchValidatingWebhook` /
`patchMutatingWebhook`. -/
structure PatchOp where
  op : String
  path : String
  value : Bytes
deriving DecidableEq, Repr

/-- Result of the cluster GET for a webhook configuration: absent, present
with `n` embedded webhook entries, or an API error. -/
inductive GetResult
  | notFound
  | found (numWebhooks : Nat)
  | apiError (msg : String)
deriving DecidableEq, Repr

/-- The cluster as seen by the syncer: the GET result for each
`(type, name)` webhook configuration and the outcome of submitting a patch
to it. -/
structure ClusterEnv where
  getConfig : String → String → GetResult
  patchResult : String → String → Except String Unit

/-- Outcome of processing one webhook reference. -/
inductive RefOutcome
  | skippedNotFound
  | patched
  | failed (msg : String)
deriving DecidableEq, Repr

/-- Patch submissions performed against the cluster. -/
structure PatchAction where
  type_ : String
  name : String
  patch : List PatchOp
deriving DecidableEq, Repr

/-- The patch document built for a configuration with `n` embedded webhook
entries: one `replace` op per entry at `/webhooks/<i>/clientConfig/caBundle`
carrying the bundle bytes. -/
def buildPatches (n : Nat) (caBundle : Bytes) : List PatchOp :=
  (List.range n).map
    (fun i => ⟨"replace", "/webhooks/" ++ toString i ++ "/clientConfig/caBundle", caBundle⟩)

/-- Embedding of `Syncer.patchValidatingWebhook` / `patchMutatingWebhook`
(internal/cabundle/syncer.go), which differ only in the typed client used:
GET the configuration (returning nil silently when it is not found), build
one replace op per embedded webhook entry, and submit the JSON patch. -/
def patchTypedWebhook (env : ClusterEnv) (type_ name : String) (caBundle : Bytes) :
    RefOutcome × List PatchAction :=
  match env.getConfig type_ name with
  | .notFound => (.skippedNotFound, [])
  | .apiError e => (.failed e, [])
  | .found n =>
    let patch := buildPatches n caBundle
    match env.patchResult type_ name with
    | .error e => (.failed e, [⟨type_, name, patch⟩])
    | .ok _ => (.patched, [⟨type_, name, patch⟩])

/-- Embedding of `Syncer.patchWebhook`: dispatch on the reference type,
rejecting an unknown type. -/
def patchWebhook (env : ClusterEnv) (ref : WebhookRef) (caBundle : Bytes) :
    RefOutcome × List PatchAction :=
  if ref.type_ = "validating" then patchTypedWebhook env "validating" ref.name caBundle
  else if ref.type_ = "mutating" then patchTypedWebhook env "mutating" ref.name caBundle
  else (.failed ("unknown webhook type: " ++ ref.type_), [])

/-- Embedding of `Syncer.onConfigMapUpdate`: return immediately when the
configmap has no (or an empty) `ca-bundle.crt` value; otherwise patch every
configured webhook reference in order, logging a per-reference failure and
continuing with the remaining references. -/
def onConfigMapUpdate (env : ClusterEnv) (refs : List WebhookRef)
    (caBundleValue : Option Bytes) : List (WebhookRef × RefOutcome) × List PatchAction :=
  match caBundleValue with
  | none => ([], [])
  | some caBundle =>
    if caBundle.isEmpty then ([], [])
    else
      refs.foldr
        (fun ref rest =>
          let r := patchWebhook env ref caBundle
          ((ref, r.1) :: rest.1, r.2 ++ rest.2))
        ([], [])


end CABundle

namespace Reconcile

/-- A CA certificate plus private key, identified by an opaque key id. -/
structure CACert where
  keyId : Nat
  notBefore : Int
  notAfter : Int
deriving DecidableEq, Repr

/-- A serving certificate: the key id of the CA that signed it, its expiry,
and its subject alternative names. -/
structure ServingCert where
  signerKeyId : Nat
  notAfter : Int
  hostnames : List String
deriving DecidableEq, Repr

/-- The cluster objects owned by the reconcile loop.  The outer `Option` of a
Secret field records whether the Secret object exists; the inner value is the
usable certificate parsed from its data (`none` = empty or corrupt
material). -/
structure ClusterState where
  caSecret : Option (Option CACert)
  caBundle : Option (List CACert)
  servingSecret : Option (Option ServingCert)
deriving DecidableEq, Repr

/-- Write operations issued against the cluster during a reconcile tick. -/
inductive WriteAction
  | createCASecret
  | updateCASecret
  | createBundleConfigMap
  | updateBundleConfigMap
  | createServingSecret
  | updateServingSecret
deriving DecidableEq, Repr

/-- The certificate-rotation configuration of the manager. -/
structure RotationConfig where
  serviceName : String
  ns : String
  caValidity : Int
  caRefresh : Int
  certValidity : Int
  certRefresh : Int
deriving DecidableEq, Repr

/-- The hostnames required on the serving certificate
(`service`, `service.ns`, `service.ns.svc`). -/
def expectedHostnames (cfg : RotationConfig) : List String :=
  [cfg.serviceName,
   cfg.serviceName ++ "." ++ cfg.ns,
   cfg.serviceName ++ "." ++ cfg.ns ++ ".svc"]

/-- Modelled from the spec: `Manager.ensureCA` composed with the library-go
rotator `certrotation.RotatedSigningCASecret.EnsureSigningCertKeyPair`, whose
source is an external dependency and not part of this repository.  Per the
spec: create an empty Secret when absent; parse existing material; when there
is no usable certificate, or `now` is at or past `NotAfter − CARefresh`, mint
a fresh self-signed CA valid for `CAValidity` and write it back; otherwise
keep the existing signer with no write.  `freshKeyId` abstracts the newly
generated keypair. -/
def ensureCA (cfg : RotationConfig) (now : Int) (freshKeyId : Nat)
    (s : ClusterState) : CACert × ClusterState × List WriteAction :=
  match s.caSecret with
  | some (some ca) =>
    if now < ca.notAfter - cfg.caRefresh then
      (ca, s, [])
    else
      let ca2 : CACert := ⟨freshKeyId, now, now + cfg.caValidity⟩
      (ca2, { s with caSecret := some (some ca2) }, [.updateCASecret])
  | some none =>
    let ca2 : CACert := ⟨freshKeyId, now, now + cfg.caValidity⟩
    (ca2, { s with caSecret := some (some ca2) }, [.updateCASecret])
  | none =>
    let ca2 : CACert := ⟨freshKeyId, now, now + cfg.caValidity⟩
    (ca2, { s with caSecret := some (some ca2) }, [.createCASecret, .updateCASecret])

/-- Modelled from the spec: `Manager.ensureCABundle` composed with the
library-go `certrotation.CABundleConfigMap.EnsureConfigMapCABundle` (external
dependency, not in this repository).  Per the spec: the target set is the
current signer plus every certificate already in the ConfigMap that is not
yet expired; create the ConfigMap when absent, update it only when the
target differs from the stored content. -/
def ensureCABundle (now : Int) (ca : CACert) (s : ClusterState) :
    List CACert × ClusterState × List WriteAction :=
  match s.caBundle with
  | none =>
    ([ca], { s with caBundle := some [ca] }, [.createBundleConfigMap])
  | some existing =>
    let kept := existing.filter (fun c => decide (now < c.notAfter))
    let target := if ca ∈ kept then kept else kept ++ [ca]
    if target = existing then (target, s, [])
    else (target, { s with caBundle := some target }, [.updateBundleConfigMap])

/-- Modelled from the spec: the rotation test of the serving rotator
(`certrotation.RotatedSelfSignedCertKeySecret.EnsureTargetCertKeyPair`,
external dependency).  Rotation is needed when the material is absent or
invalid, the certificate is inside its refresh window, it does not chain to
any CA in the bundle, or its SANs do not cover the expected hostnames. -/
def servingNeedsRotation (cfg : RotationConfig) (now : Int)
    (bundle : List CACert) : Option ServingCert → Bool
  | none => true
  | some sv =>
    decide (sv.notAfter - cfg.certRefresh ≤ now) ||
    !(bundle.any (fun c => c.keyId == sv.signerKeyId)) ||
    !((expectedHostnames cfg).all (fun h => sv.hostnames.contains h))

/-- Modelled from the spec: `Manager.ensureServingCert` composed with the
library-go serving rotator (external dependency).  Create an empty Secret
when absent; when rotation is needed, issue a new certificate signed by the
current CA, valid for `CertValidity`, with the expected hostnames, and write
it back; otherwise perform no write. -/
def ensureServingCert (cfg : RotationConfig) (now : Int) (ca : CACert)
    (bundle : List CACert) (s : ClusterState) : ClusterState × List WriteAction :=
  match s.servingSecret with
  | some (some sv) =>
    if servingNeedsRotation cfg now bundle (some sv) then
      let sv2 : ServingCert := ⟨ca.keyId, now + cfg.certValidity, expectedHostnames cfg⟩
      ({ s with servingSecret := some (some sv2) }, [.updateServingSecret])
    else
      (s, [])
  | some none =>
    let sv2 : ServingCert := ⟨ca.keyId, now + cfg.certValidity, expectedHostnames cfg⟩
    ({ s with servingSecret := some (some sv2) }, [.updateServingSecret])
  | none =>
    let sv2 : ServingCert := ⟨ca.keyId, now + cfg.certValidity, expectedHostnames cfg⟩
    ({ s with servingSecret := some (some sv2) },
      [.createServingSecret, .updateServingSecret])

/-- Modelled from the spec: one failure-free reconcile tick of
`Manager.sync` — ensure CA, then CA bundle, then serving certificate —
returning the final cluster state and all writes issued. -/
def syncTick (cfg : RotationConfig) (now : Int) (freshKeyId : Nat)
    (s : ClusterState) : ClusterState × List WriteAction :=
  let r1 := ensureCA cfg now freshKeyId s
  let r2 := ensureCABundle now r1.1 r1.2.1
  let r3 := ensureServingCert cfg now r1.1 r2.1 r2.2.1
  (r3.1, r1.2.2 ++ (r2.2.2 ++ r3.2))

/-- A well-formed rotation configuration: positive durations with each
refresh strictly below its validity (enforced by `validateCertDurations` at
startup). -/
def validRotationConfig (cfg : RotationConfig) : Prop :=
  0 < cfg.caRefresh ∧ cfg.caRefresh < cfg.caValidity ∧
  0 < cfg.certRefresh ∧ cfg.certRefresh < cfg.certValidity

/-- A converged cluster state at time `now`: all three objects exist, the CA
is outside its refresh window and present in the bundle, every bundle entry
is unexpired, and the serving certificate is fresh, chained to the bundle
and covers the expected hostnames. -/
def converged (cfg : RotationConfig) (now : Int) (s : ClusterState) : Prop :=
  ∃ ca bundle sv,
    s.caSecret = some (some ca) ∧
    s.caBundle = some bundle ∧
    s.servingSecret = some (some sv) ∧
    now < ca.notAfter - cfg.caRefresh ∧
    ca ∈ bundle ∧
    (∀ c ∈ bundle, now < c.notAfter) ∧
    now < sv.notAfter - cfg.certRefresh ∧
    bundle.any (fun c => c.keyId == sv.signerKeyId) = true ∧
    (expectedHostnames cfg).all (fun h => sv.hostnames.contains h) = true


end Reconcile

/-!
Helper lemmas about the embedded definitions, used by the claim theorems
below.
-/

namespace CertProvider

theorem step_current (parse : Bytes → Bytes → Option Keypair)
    (s : ProviderState) (e : SecretEvent) :
    (step parse s e).current = (installResult parse e).or s.current := by
  cases e with
  | delete => rfl
  | upsert sec =>
    simp only [step, onSecretUpdate, installResult]
    cases hcrt : sec.crt with
    | none => rfl
    | some certPEM =>
      by_cases hc : certPEM.isEmpty
      · simp [hc]
      · simp only [hc, if_false, Bool.false_eq_true, reduceIte]
        cases hkey : sec.key with
        | none => rfl
        | some keyPEM =>
          by_cases hk : keyPEM.isEmpty
          · simp [hk]
          · simp only [hk, if_false, Bool.false_eq_true, reduceIte]
            cases parse certPEM keyPEM <;> rfl

theorem foldl_current (parse : Bytes → Bytes → Option Keypair)
    (events : List SecretEvent) :
    ∀ s : ProviderState,
      (events.foldl (step parse) s).current =
        events.foldl (fun acc e => (installResult parse e).or acc) s.current := by
  induction events with
  | nil => intro s; rfl
  | cons e es ih =>
    intro s
    rw [List.foldl_cons, List.foldl_cons, ih (step parse s e), step_current]

theorem run_current (parse : Bytes → Bytes → Option Keypair)
    (events : List SecretEvent) :
    (run parse events).current = lastInstalled parse events := by
  rw [run, lastInstalled, foldl_current]
  rfl

end CertProvider

namespace Startup

theorem validateHooks_ok_mem (hooks : List Hook) :
    ∀ (seen : List String) (i : Nat), validateHooks seen i hooks = .ok () →
      ∀ h ∈ hooks,
        h.path ≠ "" ∧ (h.type_ = "Mutating" ∨ h.type_ = "Validating") := by
  induction hooks with
  | nil => intro seen i _ h hmem; cases hmem
  | cons hd tl ih =>
    intro seen i hok h hmem
    rw [validateHooks] at hok
    by_cases h1 : hd.path = ""
    · rw [if_pos h1] at hok; exact Except.noConfusion hok
    rw [if_neg h1] at hok
    by_cases h2 : hd.path.toList.head? ≠ some '/'
    · rw [if_pos h2] at hok; exact Except.noConfusion hok
    rw [if_neg h2] at hok
    by_cases h3 : seen.contains hd.path
    · rw [if_pos h3] at hok; exact Except.noConfusion hok
    rw [if_neg h3] at hok
    by_cases h4 : hd.handleNil
    · rw [if_pos h4] at hok; exact Except.noConfusion hok
    rw [if_neg h4] at hok
    by_cases h5 : hd.type_ ≠ "Mutating" ∧ hd.type_ ≠ "Validating"
    · rw [if_pos h5] at hok; exact Except.noConfusion hok
    rw [if_neg h5] at hok
    rw [List.mem_cons] at hmem
    rcases hmem with rfl | hmem
    · refine ⟨h1, ?_⟩
      rcases not_and_or.mp h5 with hx | hx
      · exact Or.inl (not_not.mp hx)
      · exact Or.inr (not_not.mp hx)
    · exact ih (hd.path :: seen) (i + 1) hok h hmem

theorem validateHooks_ok_nodup (hooks : List Hook) :
    ∀ (seen : List String) (i : Nat), validateHooks seen i hooks = .ok () →
      (hooks.map Hook.path).Nodup ∧ ∀ p ∈ hooks.map Hook.path, p ∉ seen := by
  induction hooks with
  | nil => intro seen i _; exact ⟨List.nodup_nil, by intro p hp; cases hp⟩
  | cons hd tl ih =>
    intro seen i hok
    rw [validateHooks] at hok
    by_cases h1 : hd.path = ""
    · rw [if_pos h1] at hok; exact Except.noConfusion hok
    rw [if_neg h1] at hok
    by_cases h2 : hd.path.toList.head? ≠ some '/'
    · rw [if_pos h2] at hok; exact Except.noConfusion hok
    rw [if_neg h2] at hok
    by_cases h3 : seen.contains hd.path
    · rw [if_pos h3] at hok; exact Except.noConfusion hok
    rw [if_neg h3] at hok
    by_cases h4 : hd.handleNil
    · rw [if_pos h4] at hok; exact Except.noConfusion hok
    rw [if_neg h4] at hok
    by_cases h5 : hd.type_ ≠ "Mutating" ∧ hd.type_ ≠ "Validating"
    · rw [if_pos h5] at hok; exact Except.noConfusion hok
    rw [if_neg h5] at hok
    obtain ⟨htl, hseen⟩ := ih (hd.path :: seen) (i + 1) hok
    constructor
    · rw [List.map_cons, List.nodup_cons]
      refine ⟨?_, htl⟩
      intro hmem
      exact (hseen hd.path hmem) (List.mem_cons_self hd.path seen)
    · intro p hp
      rw [List.map_cons, List.mem_cons] at hp
      rcases hp with rfl | hp
      · intro habs
        exact h3 (List.elem_iff.mpr habs)
      · intro habs
        exact (hseen p hp) (List.mem_cons_of_mem _ habs)

theorem validateCertDurations_ok (cfg : Config)
    (hok : validateCertDurations cfg = .ok ()) :
    0 < cfg.caValidity ∧ 0 < cfg.caRefresh ∧
    0 < cfg.certValidity ∧ 0 < cfg.certRefresh ∧
    cfg.caRefresh < cfg.caValidity ∧ cfg.certRefresh < cfg.certValidity := by
  rw [validateCertDurations] at hok
  by_cases h1 : cfg.caValidity ≤ 0
  · rw [if_pos h1] at hok; exact Except.noConfusion hok
  rw [if_neg h1] at hok
  by_cases h2 : cfg.caRefresh ≤ 0
  · rw [if_pos h2] at hok; exact Except.noConfusion hok
  rw [if_neg h2] at hok
  by_cases h3 : cfg.certValidity ≤ 0
  · rw [if_pos h3] at hok; exact Except.noConfusion hok
  rw [if_neg h3] at hok
  by_cases h4 : cfg.certRefresh ≤ 0
  · rw [if_pos h4] at hok; exact Except.noConfusion hok
  rw [if_neg h4] at hok
  by_cases h5 : cfg.caValidity ≤ cfg.caRefresh
  · rw [if_pos h5] at hok; exact Except.noConfusion hok
  rw [if_neg h5] at hok
  by_cases h6 : cfg.certValidity ≤ cfg.certRefresh
  · rw [if_pos h6] at hok; exact Except.noConfusion hok
  exact ⟨lt_of_not_le h1, lt_of_not_le h2, lt_of_not_le h3, lt_of_not_le h4,
    lt_of_not_le h5, lt_of_not_le h6⟩

theorem applyDefaults_durations (detectedNs : String) (cfg : Config) :
    (applyDefaults detectedNs cfg).caValidity = cfg.caValidity ∧
    (applyDefaults detectedNs cfg).caRefresh = cfg.caRefresh ∧
    (applyDefaults detectedNs cfg).certValidity = cfg.certValidity ∧
    (applyDefaults detectedNs cfg).certRefresh = cfg.certRefresh :=
  ⟨rfl, rfl, rfl, rfl⟩

end Startup

namespace CABundle

theorem onConfigMapUpdate_outcomes (env : ClusterEnv) (refs : List WebhookRef)
    (caBundle : Bytes) (hne : ¬ caBundle.isEmpty) :
    (onConfigMapUpdate env refs (some caBundle)).1 =
      refs.map (fun ref => (ref, (patchWebhook env ref caBundle).1)) := by
  rw [onConfigMapUpdate, if_neg hne]
  induction refs with
  | nil => rfl
  | cons r rs ih => simp only [List.foldr_cons, List.map_cons, ih]

end CABundle

namespace Reconcile

theorem ensureCA_post (cfg : RotationConfig) (now : Int) (k : Nat)
    (s : ClusterState) (hv : cfg.caRefresh < cfg.caValidity) :
    ∀ ca' s' w, ensureCA cfg now k s = (ca', s', w) →
      s'.caSecret = some (some ca') ∧ now < ca'.notAfter - cfg.caRefresh ∧
      s'.caBundle = s.caBundle ∧ s'.servingSecret = s.servingSecret := by
  intro ca' s' w h
  cases hs : s.caSecret with
  | none =>
    simp only [ensureCA, hs, Prod.mk.injEq] at h
    obtain ⟨rfl, rfl, rfl⟩ := h
    refine ⟨rfl, ?_, rfl, rfl⟩
    simp only []
    omega
  | some inner =>
    cases inner with
    | none =>
      simp only [ensureCA, hs, Prod.mk.injEq] at h
      obtain ⟨rfl, rfl, rfl⟩ := h
      refine ⟨rfl, ?_, rfl, rfl⟩
      simp only []
      omega
    | some ca =>
      by_cases hc : now < ca.notAfter - cfg.caRefresh
      · simp only [ensureCA, hs, if_pos hc, Prod.mk.injEq] at h
        obtain ⟨rfl, rfl, rfl⟩ := h
        exact ⟨hs, hc, rfl, rfl⟩
      · simp only [ensureCA, hs, if_neg hc, Prod.mk.injEq] at h
        obtain ⟨rfl, rfl, rfl⟩ := h
        refine ⟨rfl, ?_, rfl, rfl⟩
        simp only []
        omega

theorem ensureCABundle_post (now : Int) (ca : CACert) (s : ClusterState)
    (hfresh : now < ca.notAfter) :
    ∀ bundle' s' w, ensureCABundle now ca s = (bundle', s', w) →
      s'.caBundle = some bundle' ∧ ca ∈ bundle' ∧
      (∀ c ∈ bundle', now < c.notAfter) ∧
      s'.caSecret = s.caSecret ∧ s'.servingSecret = s.servingSecret := by
  intro bundle' s' w h
  cases hs : s.caBundle with
  | none =>
    simp only [ensureCABundle, hs, Prod.mk.injEq] at h
    obtain ⟨rfl, rfl, rfl⟩ := h
    refine ⟨rfl, List.mem_singleton_self ca, ?_, rfl, rfl⟩
    intro c hc
    rw [List.mem_singleton] at hc
    subst hc
    exact hfresh
  | some existing =>
    have hkept : ∀ c ∈ existing.filter (fun c => decide (now < c.notAfter)),
        now < c.notAfter := by
      intro c hc
      have := List.of_mem_filter hc
      exact of_decide_eq_true this
    have htarget :
        ∀ tgt, tgt = (if ca ∈ existing.filter (fun c => decide (now < c.notAfter))
            then existing.filter (fun c => decide (now < c.notAfter))
            else existing.filter (fun c => decide (now < c.notAfter)) ++ [ca]) →
          ca ∈ tgt ∧ ∀ c ∈ tgt, now < c.notAfter := by
      intro tgt htgt
      by_cases hmem : ca ∈ existing.filter (fun c => decide (now < c.notAfter))
      · rw [htgt, if_pos hmem]
        exact ⟨hmem, hkept⟩
      · rw [htgt, if_neg hmem]
        constructor
        · exact List.mem_append_right _ (List.mem_singleton_self ca)
        · intro c hc
          rcases List.mem_append.mp hc with hc | hc
          · exact hkept c hc
          · rw [List.mem_singleton] at hc
            subst hc
            exact hfresh
    simp only [ensureCABundle, hs] at h
    by_cases heq :
        (if ca ∈ existing.filter (fun c => decide (now < c.notAfter))
          then existing.filter (fun c => decide (now < c.notAfter))
          else existing.filter (fun c => decide (now < c.notAfter)) ++ [ca]) = existing
    · rw [if_pos heq] at h
      simp only [Prod.mk.injEq] at h
      obtain ⟨rfl, rfl, rfl⟩ := h
      obtain ⟨hmem2, hall2⟩ := htarget _ rfl
      exact ⟨hs.trans (congrArg some heq.symm), hmem2, hall2, rfl, rfl⟩
    · rw [if_neg heq] at h
      simp only [Prod.mk.injEq] at h
      obtain ⟨rfl, rfl, rfl⟩ := h
      obtain ⟨hmem2, hall2⟩ := htarget _ rfl
      exact ⟨rfl, hmem2, hall2, rfl, rfl⟩

theorem ensureServingCert_post (cfg : RotationConfig) (now : Int) (ca : CACert)
    (bundle : List CACert) (s : ClusterState)
    (hv : cfg.certRefresh < cfg.certValidity) (hmem : ca ∈ bundle) :
    ∀ s' w, ensureServingCert cfg now ca bundle s = (s', w) →
      ∃ sv, s'.servingSecret = some (some sv) ∧
        now < sv.notAfter - cfg.certRefresh ∧
        bundle.any (fun c => c.keyId == sv.signerKeyId) = true ∧
        (expectedHostnames cfg).all (fun h => sv.hostnames.contains h) = true ∧
        s'.caSecret = s.caSecret ∧ s'.caBundle = s.caBundle := by
  intro s' w h
  have hfreshAny : bundle.any (fun c => c.keyId == ca.keyId) = true := by
    rw [List.any_eq_true]
    exact ⟨ca, hmem, by simp⟩
  have hfreshAll :
      (expectedHostnames cfg).all
        (fun h => (expectedHostnames cfg).contains h) = true := by
    rw [List.all_eq_true]
    intro x hx
    exact List.elem_iff.mpr hx
  cases hs : s.servingSecret with
  | none =>
    simp only [ensureServingCert, hs, Prod.mk.injEq] at h
    obtain ⟨rfl, rfl⟩ := h
    exact ⟨_, rfl, by simp only []; omega, hfreshAny, hfreshAll, rfl, rfl⟩
  | some inner =>
    cases inner with
    | none =>
      simp only [ensureServingCert, hs, Prod.mk.injEq] at h
      obtain ⟨rfl, rfl⟩ := h
      exact ⟨_, rfl, by simp only []; omega, hfreshAny, hfreshAll, rfl, rfl⟩
    | some sv =>
      by_cases hrot : servingNeedsRotation cfg now bundle (some sv) = true
      · simp only [ensureServingCert, hs, if_pos hrot, Prod.mk.injEq] at h
        obtain ⟨rfl, rfl⟩ := h
        exact ⟨_, rfl, by simp only []; omega, hfreshAny, hfreshAll, rfl, rfl⟩
      · simp only [ensureServingCert, hs, if_neg hrot, Prod.mk.injEq] at h
        obtain ⟨rfl, rfl⟩ := h
        rw [servingNeedsRotation, Bool.not_eq_true] at hrot
        rw [Bool.or_eq_false_iff, Bool.or_eq_false_iff] at hrot
        obtain ⟨⟨hdec, hany⟩, hall⟩ := hrot
        rw [Bool.not_eq_false'] at hany hall
        refine ⟨sv, hs, ?_, hany, hall, rfl, rfl⟩
        have := of_decide_eq_false hdec
        omega

theorem syncTick_converged (cfg : RotationConfig) (now : Int) (k : Nat)
    (s : ClusterState) (hv : validRotationConfig cfg) :
    converged cfg now (syncTick cfg now k s).1 := by
  obtain ⟨h1, h2, h3, h4⟩ := hv
  rcases hA : ensureCA cfg now k s with ⟨ca1, s1, w1⟩
  obtain ⟨hca1, hfresh1, hb1, hsv1⟩ := ensureCA_post cfg now k s h2 ca1 s1 w1 hA
  have hfreshCA : now < ca1.notAfter := by omega
  rcases hB : ensureCABundle now ca1 s1 with ⟨bundle1, s2, w2⟩
  obtain ⟨hcb2, hmem2, hall2, hcs2, hss2⟩ :=
    ensureCABundle_post now ca1 s1 hfreshCA bundle1 s2 w2 hB
  rcases hC : ensureServingCert cfg now ca1 bundle1 s2 with ⟨s3, w3⟩
  obtain ⟨sv, hsv3, hfresh3, hany3, hall3, hcs3, hcb3⟩ :=
    ensureServingCert_post cfg now ca1 bundle1 s2 h4 hmem2 s3 w3 hC
  have htick : (syncTick cfg now k s).1 = s3 := by
    simp [syncTick, hA, hB, hC]
  rw [htick]
  refine ⟨ca1, bundle1, sv, ?_, ?_, hsv3, hfresh1, hmem2, hall2, hfresh3, hany3, hall3⟩
  · rw [hcs3, hcs2]; exact hca1
  · rw [hcb3]; exact hcb2

theorem converged_syncTick_fixed (cfg : RotationConfig) (now : Int) (k : Nat)
    (s : ClusterState) (hcv : converged cfg now s) :
    syncTick cfg now k s = (s, []) := by
  obtain ⟨ca, bundle, sv, hca, hb, hsv, hfCA, hmem, hunexp, hfSv, hany, hall⟩ := hcv
  have e1 : ensureCA cfg now k s = (ca, s, []) := by
    simp [ensureCA, hca, hfCA]
  have hkeptEq : bundle.filter (fun c => decide (now < c.notAfter)) = bundle :=
    List.filter_eq_self.mpr (fun c hc => decide_eq_true (hunexp c hc))
  have e2 : ensureCABundle now ca s = (bundle, s, []) := by
    simp [ensureCABundle, hb, hkeptEq, hmem]
  have hnr : servingNeedsRotation cfg now bundle (some sv) = false := by
    have hdec : decide (sv.notAfter - cfg.certRefresh ≤ now) = false :=
      decide_eq_false (by omega)
    simp [servingNeedsRotation, hany, hall, hdec]
    constructor
    · omega
    · intro x hx
      rw [List.all_eq_true] at hall
      exact List.elem_iff.mp (hall x hx)
  have e3 : ensureServingCert cfg now ca bundle s = (s, []) := by
    simp [ensureServingCert, hsv, hnr]
  simp [syncTick, e1, e2, e3]

end Reconcile

namespace CertManager

theorem startLoop_times (f : Nat → Except String Unit) :
    ∀ (n k : Nat), (startLoop f k n).1 =
      List.range' (k * tickIntervalSeconds) n tickIntervalSeconds := by
  intro n
  induction n with
  | zero => intro k; rfl
  | succ m ih =>
    intro k
    have hm : (k + 1) * tickIntervalSeconds =
        k * tickIntervalSeconds + tickIntervalSeconds := by ring
    simp only [startLoop, ih (k + 1), List.range'_succ, hm]

theorem startLoop_log (f : Nat → Except String Unit) :
    ∀ (n k j : Nat) (e : String), j < n → f (k + j) = .error e →
      ("Certificate sync failed: " ++ e) ∈ (startLoop f k n).2 := by
  intro n
  induction n with
  | zero => intro k j e hj _; exact absurd hj (by omega)
  | succ m ih =>
    intro k j e hj hf
    simp only [startLoop]
    cases j with
    | zero =>
      simp only [Nat.add_zero] at hf
      rw [hf]
      exact List.mem_append_left _ (List.mem_singleton_self _)
    | succ i =>
      have hf2 : f ((k + 1) + i) = .error e := by
        rw [← hf]; congr 1; omega
      exact List.mem_append_right _ (ih (k + 1) i e (by omega) hf2)

end CertManager

/-!
Claim theorems.
-/

/-- C1: within a single reconcile tick, `Manager.sync` performs the three
ensure steps strictly in the order CA, then CA bundle, then serving
certificate; if the CA step fails the bundle and serving steps are not
invoked; if the bundle step fails the serving step is not invoked; and the
serving step runs only when the bundle step has succeeded for the CA
returned by the CA step. -/
theorem C1_sync_order_and_short_circuit (env : CertManager.SyncEnv) :
    ((CertManager.sync env).steps = [.ensureCA] ∨
      (CertManager.sync env).steps = [.ensureCA, .ensureCABundle] ∨
      (CertManager.sync env).steps =
        [.ensureCA, .ensureCABundle, .ensureServingCert]) ∧
    (∀ e, env.caResult = .error e →
      (CertManager.sync env).steps = [.ensureCA] ∧
      (CertManager.sync env).result = .error ("failed to ensure CA: " ++ e)) ∧
    (∀ ca e, env.caResult = .ok ca → env.bundleResult ca = .error e →
      (CertManager.sync env).steps = [.ensureCA, .ensureCABundle] ∧
      (CertManager.sync env).result =
        .error ("failed to ensure CA bundle: " ++ e)) ∧
    (CertManager.SyncStep.ensureServingCert ∈ (CertManager.sync env).steps →
      ∃ ca bundle, env.caResult = .ok ca ∧ env.bundleResult ca = .ok bundle) := by
  rcases hca : env.caResult with e0 | ca0
  · refine ⟨Or.inl ?_, ?_, ?_, ?_⟩
    · simp [CertManager.sync, hca]
    · intro e he
      injection he with he
      subst he
      simp [CertManager.sync, hca]
    · intro ca e hok
      exact Except.noConfusion hok
    · intro hmem
      simp [CertManager.sync, hca] at hmem
  · rcases hb : env.bundleResult ca0 with e1 | bundle0
    · refine ⟨Or.inr (Or.inl ?_), ?_, ?_, ?_⟩
      · simp [CertManager.sync, hca, hb]
      · intro e he
        exact Except.noConfusion he
      · intro ca e hok hberr
        injection hok with hok
        subst hok
        rw [hb] at hberr
        injection hberr with hberr
        subst hberr
        simp [CertManager.sync, hca, hb]
      · intro hmem
        simp [CertManager.sync, hca, hb] at hmem
    · refine ⟨Or.inr (Or.inr ?_), ?_, ?_, ?_⟩
      · rcases hsrv : env.servingResult ca0 bundle0 with e2 | u <;>
          simp [CertManager.sync, hca, hb, hsrv]
      · intro e he
        exact Except.noConfusion he
      · intro ca e hok hberr
        injection hok with hok
        subst hok
        rw [hb] at hberr
        exact Except.noConfusion hberr
      · intro _
        exact ⟨ca0, bundle0, rfl, hb⟩

/-- Witness for C1 at a concrete environment whose CA step fails: the bundle
and serving steps are skipped and the error is wrapped and returned. -/
theorem C1_sync_order_and_short_circuit_witness :
    (CertManager.sync ⟨.error "boom", fun _ => .ok [], fun _ _ => .ok ()⟩).steps =
      [.ensureCA] ∧
    (CertManager.sync ⟨.error "boom", fun _ => .ok [], fun _ _ => .ok ()⟩).result =
      .error "failed to ensure CA: boom" :=
  (C1_sync_order_and_short_circuit
    ⟨.error "boom", fun _ => .ok [], fun _ _ => .ok ()⟩).2.1 "boom" rfl

/-- C2 (amended): when the informer caches sync, `Manager.Start` runs one
reconcile immediately and then one per 60-second tick, logs every reconcile
failure without aborting the loop, and returns nil once the context is
cancelled; when the caches fail to sync (the context is cancelled first),
`Start` instead returns an error. -/
theorem C2_start_reconcile_loop (env : CertManager.StartEnv) :
    (env.cacheSyncOk = true →
      (CertManager.start env).syncTimes =
        List.range' 0 (env.cancelTick + 1) CertManager.tickIntervalSeconds ∧
      (CertManager.start env).result = .ok () ∧
      (∀ e, env.syncResult 0 = .error e →
        ("Initial certificate sync failed: " ++ e) ∈
          (CertManager.start env).errorLog) ∧
      (∀ k e, 1 ≤ k → k ≤ env.cancelTick → env.syncResult k = .error e →
        ("Certificate sync failed: " ++ e) ∈
          (CertManager.start env).errorLog)) ∧
    (env.cacheSyncOk = false →
      (CertManager.start env).result =
        .error "could not sync informer cache") := by
  constructor
  · intro hok
    have hstart : CertManager.start env =
        ⟨0 :: (CertManager.startLoop env.syncResult 1 env.cancelTick).1,
          (match env.syncResult 0 with
            | .error e => ["Initial certificate sync failed: " ++ e]
            | .ok _ => []) ++
            (CertManager.startLoop env.syncResult 1 env.cancelTick).2,
          .ok ()⟩ := by
      rw [CertManager.start, if_pos hok]
    refine ⟨?_, ?_, ?_, ?_⟩
    · rw [hstart]
      show 0 :: (CertManager.startLoop env.syncResult 1 env.cancelTick).1 = _
      rw [CertManager.startLoop_times, List.range'_succ]
      norm_num
    · rw [hstart]
    · intro e he
      rw [hstart]
      show _ ∈ (match env.syncResult 0 with
        | .error e => ["Initial certificate sync failed: " ++ e]
        | .ok _ => []) ++ _
      rw [he]
      exact List.mem_append_left _ (List.mem_singleton_self _)
    · intro k e hk1 hk2 he
      rw [hstart]
      show _ ∈ _ ++ (CertManager.startLoop env.syncResult 1 env.cancelTick).2
      refine List.mem_append_right _ ?_
      have hf2 : env.syncResult (1 + (k - 1)) = .error e := by
        rw [← he]; congr 1; omega
      exact CertManager.startLoop_log env.syncResult env.cancelTick 1 (k - 1) e
        (by omega) hf2
  · intro hfail
    rw [CertManager.start, if_neg (by rw [hfail]; exact Bool.false_ne_true)]

/-- Witness for C2 at a concrete environment: caches sync, the initial
reconcile fails, two ticker fires are delivered before cancellation.  The
sync times are 0, 60 and 120 seconds, the initial failure is logged, and
`Start` returns nil. -/
theorem C2_start_reconcile_loop_witness :
    (CertManager.start
        ⟨true, fun k => if k = 0 then .error "e0" else .ok (), 2⟩).syncTimes =
      [0, 60, 120] ∧
    (CertManager.start
        ⟨true, fun k => if k = 0 then .error "e0" else .ok (), 2⟩).result = .ok () ∧
    "Initial certificate sync failed: e0" ∈
      (CertManager.start
        ⟨true, fun k => if k = 0 then .error "e0" else .ok (), 2⟩).errorLog := by
  have h := (C2_start_reconcile_loop
    ⟨true, fun k => if k = 0 then .error "e0" else .ok (), 2⟩).1 rfl
  exact ⟨h.1.trans rfl, h.2.1, h.2.2.1 "e0" rfl⟩

/-- Counterexample for C2 as stated: when the context is cancelled before the
informer caches sync, `WaitForCacheSync` observes the closed stop channel and
`Start` returns the cache-sync error — not nil. -/
theorem C2_start_reconcile_loop_counterexample :
    (CertManager.start ⟨false, fun _ => .ok (), 0⟩).result ≠ .ok () :=
  fun h => Except.noConfusion h

/-- C3: `Provider.GetCertificate` returns an error exactly when no keypair
was ever installed by `onSecretUpdate` (via the informer handlers or the
initial load); otherwise it returns the most recently installed keypair. -/
theorem C3_getCertificate_last_installed
    (parse : CertProvider.Bytes → CertProvider.Bytes → Option CertProvider.Keypair)
    (events : List CertProvider.SecretEvent) :
    (CertProvider.getCertificate (CertProvider.run parse events) =
        .error "certificate not yet loaded from secret" ↔
      CertProvider.lastInstalled parse events = none) ∧
    (∀ k, CertProvider.lastInstalled parse events = some k →
      CertProvider.getCertificate (CertProvider.run parse events) = .ok k) := by
  have hc := CertProvider.run_current parse events
  constructor
  · constructor
    · intro herr
      cases hl : CertProvider.lastInstalled parse events with
      | none => rfl
      | some k =>
        rw [CertProvider.getCertificate, hc, hl] at herr
        exact Except.noConfusion herr
    · intro hl
      rw [CertProvider.getCertificate, hc, hl]
  · intro k hl
    rw [CertProvider.getCertificate, hc, hl]

/-- Witness for C3 at a concrete event list: after one successful install the
last installed keypair is returned. -/
theorem C3_getCertificate_last_installed_witness :
    CertProvider.getCertificate
      (CertProvider.run (fun _ _ => some 7)
        [.upsert ⟨some [1], some [2]⟩]) = .ok 7 :=
  (C3_getCertificate_last_installed (fun _ _ => some 7)
    [.upsert ⟨some [1], some [2]⟩]).2 7 rfl

/-- C4: `Provider.onSecretUpdate` leaves both the installed keypair and the
ready flag unchanged when `tls.crt` or `tls.key` is missing or empty or when
the material fails to parse; only on a successful parse does it store the new
keypair (and set ready). -/
theorem C4_onSecretUpdate_frame
    (parse : CertProvider.Bytes → CertProvider.Bytes → Option CertProvider.Keypair)
    (s : CertProvider.ProviderState) (sec : CertProvider.SecretData) :
    ((sec.crt = none ∨ (∃ b, sec.crt = some b ∧ b.isEmpty = true) ∨
      sec.key = none ∨ (∃ b, sec.key = some b ∧ b.isEmpty = true) ∨
      (∃ cb kb, sec.crt = some cb ∧ cb.isEmpty = false ∧
        sec.key = some kb ∧ kb.isEmpty = false ∧ parse cb kb = none)) →
      CertProvider.onSecretUpdate parse s sec = s) ∧
    (∀ cb kb kp, sec.crt = some cb → cb.isEmpty = false →
      sec.key = some kb → kb.isEmpty = false → parse cb kb = some kp →
      CertProvider.onSecretUpdate parse s sec = ⟨some kp, true⟩) := by
  constructor
  · intro hbad
    rcases hbad with h | ⟨b, hb, hbe⟩ | h | ⟨b, hb, hbe⟩ | ⟨cb, kb, hcb, hcbe, hkb, hkbe, hp⟩
    · simp [CertProvider.onSecretUpdate, h]
    · rw [CertProvider.onSecretUpdate, hb]
      simp [hbe]
    · rw [CertProvider.onSecretUpdate]
      cases hcrt : sec.crt with
      | none => rfl
      | some cb =>
        by_cases hce : cb.isEmpty
        · simp [hce]
        · simp [hce, h]
    · rw [CertProvider.onSecretUpdate]
      cases hcrt : sec.crt with
      | none => rfl
      | some cb =>
        by_cases hce : cb.isEmpty
        · simp [hce]
        · simp [hce, hb, hbe]
    · rw [CertProvider.onSecretUpdate, hcb]
      simp [hcbe, hkb, hkbe, hp]
  · intro cb kb kp hcb hcbe hkb hkbe hp
    rw [CertProvider.onSecretUpdate, hcb]
    simp [hcbe, hkb, hkbe, hp]

/-- Witness for C4 at concrete inputs: an update with an empty `tls.crt`
leaves a previously installed state untouched, and a parsable update installs
the new keypair. -/
theorem C4_onSecretUpdate_frame_witness :
    CertProvider.onSecretUpdate (fun _ _ => none) ⟨some 5, true⟩ ⟨some [], some [2]⟩ =
      ⟨some 5, true⟩ ∧
    CertProvider.onSecretUpdate (fun _ _ => some 9) ⟨some 5, true⟩
      ⟨some [1], some [2]⟩ = ⟨some 9, true⟩ :=
  ⟨(C4_onSecretUpdate_frame (fun _ _ => none) ⟨some 5, true⟩
      ⟨some [], some [2]⟩).1 (Or.inr (Or.inl ⟨[], rfl, rfl⟩)),
   (C4_onSecretUpdate_frame (fun _ _ => some 9) ⟨some 5, true⟩
      ⟨some [1], some [2]⟩).2 [1] [2] 9 rfl rfl rfl rfl rfl⟩

namespace CertProvider

theorem foldl_or_isSome (parse : Bytes → Bytes → Option Keypair)
    (events : List SecretEvent) :
    ∀ a : Option Keypair, a.isSome = true →
      (events.foldl (fun acc e => (installResult parse e).or acc) a).isSome = true := by
  induction events with
  | nil => intro a ha; exact ha
  | cons e es ih =>
    intro a ha
    rw [List.foldl_cons]
    apply ih
    cases hi : installResult parse e with
    | none => exact ha
    | some k => rfl

end CertProvider

/-- C10: once a keypair has been installed, `GetCertificate` never errors
again: a delete event only clears the ready flag and never clears the stored
keypair, so after any further events the provider still returns a keypair. -/
theorem C10_keypair_never_cleared
    (parse : CertProvider.Bytes → CertProvider.Bytes → Option CertProvider.Keypair)
    (s : CertProvider.ProviderState) :
    (CertProvider.step parse s .delete = ⟨s.current, false⟩) ∧
    (∀ (events : List CertProvider.SecretEvent) (k : CertProvider.Keypair),
      s.current = some k →
      ∃ k2, CertProvider.getCertificate
        (events.foldl (CertProvider.step parse) s) = .ok k2) := by
  constructor
  · rfl
  · intro events k hk
    have hsome := CertProvider.foldl_or_isSome parse events s.current
      (by rw [hk]; rfl)
    rw [← CertProvider.foldl_current parse events s] at hsome
    cases hfin : (events.foldl (CertProvider.step parse) s).current with
    | none => rw [hfin] at hsome; exact Bool.noConfusion hsome
    | some k2 =>
      exact ⟨k2, by rw [CertProvider.getCertificate, hfin]⟩

/-- Witness for C10 at a concrete state: with a keypair installed, a delete
event flips only the ready flag and the certificate is still served. -/
theorem C10_keypair_never_cleared_witness :
    CertProvider.step (fun _ _ => none) ⟨some 3, true⟩ .delete = ⟨some 3, false⟩ ∧
    ∃ k2, CertProvider.getCertificate
      ([CertProvider.SecretEvent.delete].foldl
        (CertProvider.step (fun _ _ => none)) ⟨some 3, true⟩) = .ok k2 :=
  ⟨(C10_keypair_never_cleared (fun _ _ => none) ⟨some 3, true⟩).1,
   (C10_keypair_never_cleared (fun _ _ => none) ⟨some 3, true⟩).2 [.delete] 3 rfl⟩

/-- C5 (code evaluated at the failing input): when the user Admit function
returns a nil response for a review with a non-nil Request, both admission
adapters assign `Response.UID` through the nil pointer and panic; no
failure status with code 500 is produced. -/
theorem C5_nil_response_panics :
    AdmissionHTTP.serveHTTP (fun _ => none) AdmissionHTTP.nilResponseProbe =
      ⟨.panicked, true⟩ ∧
    AdmissionHTTP.handleAdmission (fun _ => none) AdmissionHTTP.nilResponseProbe =
      ⟨.panicked, true⟩ :=
  ⟨rfl, rfl⟩

/-- C6 (amended): the internal server handler rejects a body over 10 MiB
with 400, an empty body with 400 and a non-`application/json` content type
with 415, all without invoking the Admit function; the legacy
`pkg/server` handler enforces no size limit but still rejects empty bodies
and unsupported content types without invoking the handler. -/
theorem C6_request_gatekeeping
    (handle : AdmissionHTTP.AdmissionReview → Option AdmissionHTTP.AdmissionResponse)
    (r : AdmissionHTTP.HttpRequest) :
    (AdmissionHTTP.maxRequestBodySize < r.bodyLen →
      AdmissionHTTP.serveHTTP handle r =
        ⟨.httpError 400 "failed to read request body: http: request body too large",
          false⟩) ∧
    (r.bodyLen = 0 →
      AdmissionHTTP.serveHTTP handle r =
        ⟨.httpError 400 "empty request body", false⟩ ∧
      AdmissionHTTP.handleAdmission handle r =
        ⟨.httpError 400 "empty request body", false⟩) ∧
    (r.bodyLen ≠ 0 → r.contentType ≠ "application/json" →
      (r.bodyLen ≤ AdmissionHTTP.maxRequestBodySize →
        AdmissionHTTP.serveHTTP handle r =
          ⟨.httpError 415 ("unsupported content type: " ++ r.contentType), false⟩) ∧
      AdmissionHTTP.handleAdmission handle r =
        ⟨.httpError 415 ("unsupported content type: " ++ r.contentType), false⟩) := by
  refine ⟨?_, ?_, ?_⟩
  · intro hbig
    rw [AdmissionHTTP.serveHTTP, if_pos hbig]
  · intro hzero
    constructor
    · rw [AdmissionHTTP.serveHTTP, if_neg (by omega), if_pos hzero]
    · rw [AdmissionHTTP.handleAdmission, if_pos hzero]
  · intro hnz hct
    constructor
    · intro hsz
      rw [AdmissionHTTP.serveHTTP, if_neg (by omega), if_neg hnz, if_pos hct]
    · rw [AdmissionHTTP.handleAdmission, if_neg hnz, if_pos hct]

/-- Witness for C6 (amended) at concrete requests: the internal handler
rejects the 10 MiB + 1 body with 400 and rejects a text/plain request with
415, in both cases without calling the Admit function. -/
theorem C6_request_gatekeeping_witness :
    AdmissionHTTP.serveHTTP AdmissionHTTP.allowAll AdmissionHTTP.oversizedRequest =
      ⟨.httpError 400 "failed to read request body: http: request body too large",
        false⟩ ∧
    AdmissionHTTP.serveHTTP AdmissionHTTP.allowAll ⟨5, "text/plain", none⟩ =
      ⟨.httpError 415 "unsupported content type: text/plain", false⟩ :=
  ⟨(C6_request_gatekeeping AdmissionHTTP.allowAll
      AdmissionHTTP.oversizedRequest).1 (by decide),
   ((C6_request_gatekeeping AdmissionHTTP.allowAll
      ⟨5, "text/plain", none⟩).2.2 (by decide) (by decide)).1 (by decide)⟩

/-- Counterexample for C6 as stated: the legacy `pkg/server` adapter reads
the body with a plain `io.ReadAll` and applies no 10 MiB limit, so a valid
admission request whose body is 10 MiB + 1 bytes is served normally — the
Admit function is invoked and a 200 JSON response is written, not a 400
rejection. -/
theorem C6_request_gatekeeping_counterexample :
    (AdmissionHTTP.handleAdmission AdmissionHTTP.allowAll
        AdmissionHTTP.oversizedRequest).handlerCalled = true ∧
    (AdmissionHTTP.handleAdmission AdmissionHTTP.allowAll
        AdmissionHTTP.oversizedRequest).outcome =
      .response ⟨"admission.k8s.io/v1", "AdmissionReview", ⟨true, "uid-2", none⟩⟩ :=
  ⟨rfl, rfl⟩

/-- C7: whenever the configuration is invalid — missing name, a non-positive
certificate duration, a refresh greater than or equal to its validity
(including exact equality), a hook path missing or duplicated, or a hook
type other than Mutating or Validating — `RunWithContext` fails before
creating the Kubernetes client, so no cluster object is created and no
component is started. -/
theorem C7_invalid_config_fails_startup (detectedNs : String)
    (cfg : Startup.Config) (hooks : List Startup.Hook)
    (hinv : Startup.invalidConfig cfg hooks) :
    ∃ msg, Startup.runWithContext detectedNs cfg hooks = .failed msg := by
  by_cases hname : cfg.name = ""
  · exact ⟨_, by rw [Startup.runWithContext, if_pos hname]⟩
  by_cases hemp : hooks.isEmpty = true
  · exact ⟨_, by rw [Startup.runWithContext, if_neg hname, if_pos hemp]⟩
  cases hvh : Startup.validateHooks [] 0 hooks with
  | error e =>
    refine ⟨e, ?_⟩
    rw [Startup.runWithContext, if_neg hname, if_neg hemp]
    simp only [hvh]
  | ok u =>
    cases u
    cases hvd : Startup.validateCertDurations (Startup.applyDefaults detectedNs cfg) with
    | error e =>
      refine ⟨e, ?_⟩
      rw [Startup.runWithContext, if_neg hname, if_neg hemp]
      simp only [hvh, hvd]
    | ok u2 =>
      cases u2
      exfalso
      have hmem := Startup.validateHooks_ok_mem hooks [] 0 hvh
      have hnd := (Startup.validateHooks_ok_nodup hooks [] 0 hvh).1
      have hdur := Startup.validateCertDurations_ok _ hvd
      obtain ⟨d1, d2, d3, d4⟩ := Startup.applyDefaults_durations detectedNs cfg
      rw [d1, d2, d3, d4] at hdur
      obtain ⟨p1, p2, p3, p4, p5, p6⟩ := hdur
      rcases hinv with h | h | h | h | h | h | h |
        ⟨hh, hhm, hp⟩ | h | ⟨hh, hhm, ht⟩
      · exact hname h
      · exact absurd h (not_le.mpr p1)
      · exact absurd h (not_le.mpr p2)
      · exact absurd h (not_le.mpr p3)
      · exact absurd h (not_le.mpr p4)
      · exact absurd h (not_le.mpr p5)
      · exact absurd h (not_le.mpr p6)
      · exact (hmem hh hhm).1 hp
      · exact h hnd
      · rcases (hmem hh hhm).2 with he | he
        · exact ht.1 he
        · exact ht.2 he

/-- Witness for C7 at a concrete configuration with the certificate refresh
exactly equal to the certificate validity: startup fails. -/
theorem C7_invalid_config_fails_startup_witness :
    ∃ msg, Startup.runWithContext "default"
      ⟨"wh", "", "", "", "", "", "", 10, 5, 7, 7⟩
      [⟨"/mutate", "Mutating", false⟩] = .failed msg :=
  C7_invalid_config_fails_startup "default"
    ⟨"wh", "", "", "", "", "", "", 10, 5, 7, 7⟩
    [⟨"/mutate", "Mutating", false⟩] (by unfold Startup.invalidConfig; decide)

/-- C8: for a CA-bundle ConfigMap event with a non-empty `ca-bundle.crt`,
each referenced webhook configuration is processed independently (one
outcome per reference, regardless of earlier failures); a configuration
found with `n` embedded webhooks is patched with exactly one `replace`
operation per entry at `/webhooks/<i>/clientConfig/caBundle`; and a
not-found configuration is skipped silently with no patch submitted. -/
theorem C8_bundle_patch_isolation (env : CABundle.ClusterEnv)
    (refs : List CABundle.WebhookRef) (caBundle : CABundle.Bytes)
    (hne : ¬ caBundle.isEmpty = true) :
    ((CABundle.onConfigMapUpdate env refs (some caBundle)).1 =
      refs.map (fun ref => (ref, (CABundle.patchWebhook env ref caBundle).1))) ∧
    (∀ t n nw, env.getConfig t n = .found nw →
      (CABundle.patchTypedWebhook env t n caBundle).2 =
        [⟨t, n, CABundle.buildPatches nw caBundle⟩] ∧
      CABundle.buildPatches nw caBundle = (List.range nw).map
        (fun i => ⟨"replace",
          "/webhooks/" ++ toString i ++ "/clientConfig/caBundle", caBundle⟩)) ∧
    (∀ t n, env.getConfig t n = .notFound →
      CABundle.patchTypedWebhook env t n caBundle = (.skippedNotFound, [])) := by
  refine ⟨CABundle.onConfigMapUpdate_outcomes env refs caBundle hne, ?_, ?_⟩
  · intro t n nw hg
    constructor
    · simp only [CABundle.patchTypedWebhook, hg]
      cases hp : env.patchResult t n with
      | error e => simp [hp]
      | ok u => simp [hp]
    · rfl
  · intro t n hg
    simp only [CABundle.patchTypedWebhook, hg]

/-- Witness for C8 at a concrete cluster: the validating configuration
exists (two entries) but its patch is rejected, the mutating configuration
is absent; the syncer still records one outcome per reference, the mutating
reference is skipped silently, and the failure of the first reference does
not remove the second from the processed list. -/
theorem C8_bundle_patch_isolation_witness :
    (CABundle.onConfigMapUpdate
        ⟨fun t _ => if t = "validating" then .found 2 else .notFound,
          fun _ _ => .error "denied"⟩
        [⟨"acme", "validating"⟩, ⟨"acme", "mutating"⟩] (some [7])).1 =
      [(⟨"acme", "validating"⟩, .failed "denied"),
       (⟨"acme", "mutating"⟩, .skippedNotFound)] ∧
    CABundle.patchTypedWebhook
        ⟨fun t _ => if t = "validating" then .found 2 else .notFound,
          fun _ _ => .error "denied"⟩ "mutating" "acme" [7] =
      (.skippedNotFound, []) := by
  have h := C8_bundle_patch_isolation
    ⟨fun t _ => if t = "validating" then .found 2 else .notFound,
      fun _ _ => .error "denied"⟩
    [⟨"acme", "validating"⟩, ⟨"acme", "mutating"⟩] [7] (by decide)
  exact ⟨h.1.trans rfl, h.2.2 "mutating" "acme" rfl⟩

/-- C9: the reconcile is idempotent — when one failure-free tick runs at
time `now`, a second consecutive tick on the unchanged resulting cluster
state performs zero writes and leaves the state fixed (for any well-formed
rotation configuration). -/
theorem C9_reconcile_idempotent (cfg : Reconcile.RotationConfig) (now : Int)
    (k1 k2 : Nat) (s : Reconcile.ClusterState)
    (hv : Reconcile.validRotationConfig cfg) :
    Reconcile.syncTick cfg now k2 (Reconcile.syncTick cfg now k1 s).1 =
      ((Reconcile.syncTick cfg now k1 s).1, []) :=
  Reconcile.converged_syncTick_fixed cfg now k2 _
    (Reconcile.syncTick_converged cfg now k1 s hv)

/-- Witness for C9 at a concrete configuration and an initially empty
cluster: the second tick issues no write. -/
theorem C9_reconcile_idempotent_witness :
    Reconcile.syncTick ⟨"acme", "default", 10, 5, 10, 5⟩ 0 2
        (Reconcile.syncTick ⟨"acme", "default", 10, 5, 10, 5⟩ 0 1
          ⟨none, none, none⟩).1 =
      ((Reconcile.syncTick ⟨"acme", "default", 10, 5, 10, 5⟩ 0 1
          ⟨none, none, none⟩).1, []) :=
  C9_reconcile_idempotent ⟨"acme", "default", 10, 5, 10, 5⟩ 0 1 2
    ⟨none, none, none⟩ (by unfold Reconcile.validRotationConfig; decide)
